import Mathlib

/-!
# Verification of the BeamSimMcp beam-search simulation core

Shallow embedding of `BeamSimMcp/simulation.py`, `BeamSimMcp/storage.py` and
the validation/persistence pipeline of `BeamSimMcp/server.py`.

Modelling conventions:
* Python dicts become association lists (`List (String × _)`), preserving
  insertion order; dict assignment replaces in place or appends at the end.
* Numeric values (`int`/`float`) become `Rat`; a state's non-numeric values
  are modelled by the `Value.str` constructor.  Python's `bool`-is-`int`
  subclassing and nested JSON values are outside the model.
* `random.Random` (a Mersenne twister) is modelled by an abstract
  deterministic generator `PyRandom`; the theorems below depend only on the
  generator being a deterministic function of its seed, which holds for the
  real Mersenne twister as well.
* `hashlib.sha256` is external library code; it is modelled by a fixed
  deterministic function of the serialized string, which is the only
  property the development uses.
-/

namespace BeamSimMcp

/-- A JSON-ish field value stored in a simulation state: numeric (`int` or
`float`, modelled as `Rat`) or non-numeric (modelled as a string). -/
inductive Value where
  | num (x : Rat)
  | str (s : String)
deriving DecidableEq, Repr

/-- A Python dict from field names to values, as an insertion-ordered
association list. -/
abbrev StateDict := List (String × Value)

/-- Generic association-list lookup (`d.get(k)` / `d[k]`): first binding wins. -/
def assocGet {α : Type} : List (String × α) → String → Option α
  | [], _ => none
  | p :: ps, k => if p.1 == k then some p.2 else assocGet ps k

/-- Membership test `k in d` for a Python dict. -/
def assocMem {α : Type} : List (String × α) → String → Bool
  | [], _ => false
  | p :: ps, k => p.1 == k || assocMem ps k

/-- Python dict assignment `d[k] = v`: replace in place if the key exists,
append at the end otherwise. -/
def assocSet {α : Type} (l : List (String × α)) (k : String) (v : α) :
    List (String × α) :=
  if assocMem l k then l.map (fun p => if p.1 == k then (k, v) else p)
  else l ++ [(k, v)]

/-- Python `state.get(k, default)`. -/
def dictGetD (state : StateDict) (k : String) (d : Value) : Value :=
  (assocGet state k).getD d

/-- Constraints dict: `min_<field>` / `max_<field>` keys to numeric limits. -/
abbrev Constraints := List (String × Rat)

/-- A score breakdown: an insertion-ordered dict of named components
(the source always builds `{"value_sum": _, "constraint_penalty": _}`). -/
abbrev Breakdown := List (String × Rat)

/-- Python `sum(breakdown.values())`. -/
def bdTotal (b : Breakdown) : Rat :=
  (b.map Prod.snd).foldl (· + ·) 0

/-- Python's `s.startswith(pre)`. -/
def pyStartsWith (s pre : String) : Bool :=
  s.take pre.length == pre

/-- The function `_default_score_function` from `simulation.py`: sum the numeric values of
the state, then fold constraint penalties over the constraints dict. -/
def _default_score_function (state : StateDict) (constraints : Constraints) :
    Breakdown :=
  let value_score : Rat :=
    (state.map Prod.snd).foldl
      (fun acc v => match v with | .num x => acc + x | .str _ => acc) 0
  let penalty : Rat :=
    constraints.foldl
      (fun pen kv =>
        let key := kv.1
        let limit := kv.2
        if pyStartsWith key "max_" && assocMem state (key.drop 4) then
          match dictGetD state (key.drop 4) (.num 0) with
          | .num actual => if actual > limit then pen - (actual - limit) * 10 else pen
          | .str _ => pen
        else if pyStartsWith key "min_" && assocMem state (key.drop 4) then
          match dictGetD state (key.drop 4) (.num 0) with
          | .num actual => if actual < limit then pen - (limit - actual) * 10 else pen
          | .str _ => pen
        else pen)
      0
  [("value_sum", value_score), ("constraint_penalty", penalty)]

/-- An action descriptor dict: optional `type`, `field`, `delta`, `value`
entries (`action.get` defaults are applied at the use sites, as in the
source). -/
structure Action where
  type? : Option String := none
  field? : Option String := none
  delta? : Option Rat := none
  value? : Option Value := none
deriving DecidableEq, Repr

/-- The function `_apply_action` from `simulation.py`, as a pure value-level function:
copy the state, then dispatch on the action type. -/
def _apply_action (state : StateDict) (action : Action) : StateDict :=
  let new_state := state
  let action_type := action.type?.getD ""
  let fld := action.field?.getD ""
  let delta := action.delta?.getD 1
  if action_type == "increment" && assocMem new_state fld then
    match assocGet new_state fld with
    | some (.num x) => assocSet new_state fld (.num (x + delta))
    | _ => new_state
  else if action_type == "decrement" && assocMem new_state fld then
    match assocGet new_state fld with
    | some (.num x) => assocSet new_state fld (.num (x - delta))
    | _ => new_state
  else if action_type == "set" && fld != "" then
    assocSet new_state fld (action.value?.getD (.num 0))
  else new_state

/-! ## Explicit-heap view of `_apply_action`

The source mutates dicts through references.  To state the purity claim, a
tiny heap of dicts is modelled: addresses are list indices, `state.copy()`
allocates a fresh address, and every write of `_apply_action` targets the
fresh copy, exactly as in the source (`new_state[...] = ...`). -/

/-- A heap of dict objects, addressed by index. -/
abbrev Heap := List StateDict

/-- Dereference an address (out-of-range reads give the empty dict). -/
def heapGet (h : Heap) (a : Nat) : StateDict := h.getD a []

/-- Overwrite the dict at an address. -/
def heapSet (h : Heap) (a : Nat) (s : StateDict) : Heap := h.set a s

/-- The function `_apply_action` with explicit object identity: `state.copy()` allocates a
new dict at a fresh address, and each branch writes only through that new
address.  Returns the heap after the call and the address of the result. -/
def applyActionHeap (h : Heap) (a : Nat) (action : Action) : Heap × Nat :=
  let na := h.length
  let h1 := h ++ [heapGet h a]
  let action_type := action.type?.getD ""
  let fld := action.field?.getD ""
  let delta := action.delta?.getD 1
  if action_type == "increment" && assocMem (heapGet h1 na) fld then
    match assocGet (heapGet h1 na) fld with
    | some (.num x) =>
        (heapSet h1 na (assocSet (heapGet h1 na) fld (.num (x + delta))), na)
    | _ => (h1, na)
  else if action_type == "decrement" && assocMem (heapGet h1 na) fld then
    match assocGet (heapGet h1 na) fld with
    | some (.num x) =>
        (heapSet h1 na (assocSet (heapGet h1 na) fld (.num (x - delta))), na)
    | _ => (h1, na)
  else if action_type == "set" && fld != "" then
    (heapSet h1 na (assocSet (heapGet h1 na) fld (action.value?.getD (.num 0))), na)
  else (h1, na)

/-! ## Deterministic pseudo-random generator

`random.Random` is a Mersenne twister: a deterministic generator whose whole
stream is a function of the seed.  It is modelled abstractly by a 64-bit
linear-congruential step; only determinism matters to the claims. -/

/-- Modelled `random.Random` state. -/
structure PyRandom where
  state : Nat
deriving DecidableEq, Repr

/-- Advance the generator, producing a raw 64-bit word. -/
def PyRandom.next (r : PyRandom) : Nat × PyRandom :=
  let s := (r.state * 6364136223846793005 + 1442695040888963407) % 2 ^ 64
  (s, ⟨s⟩)

/-- Python `rng.uniform(lo, hi)`: a draw in `[lo, hi)`. -/
def PyRandom.uniform (r : PyRandom) (lo hi : Rat) : Rat × PyRandom :=
  let n := r.next
  (lo + (hi - lo) * ((n.1 % 2 ^ 53 : Nat) : Rat) / 2 ^ 53, n.2)

/-- Python `rng.getrandbits(128)`. -/
def PyRandom.getrandbits128 (r : PyRandom) : Nat × PyRandom :=
  let a := r.next
  let b := a.2.next
  (a.1 * 2 ^ 64 + b.1, b.2)

/-- Python `random.Random(seed)`: deterministic seeding. -/
def mkRandom (seed : Int) : PyRandom :=
  ⟨(seed % (2 ^ 64 : Int)).toNat⟩

/-- Modelled `hashlib.sha256(...).hexdigest()[:16]` as a 64-bit integer:
sha256 is external library code, modelled as a fixed deterministic function
of the serialized string (the only property used here). -/
def sha256head16 (s : String) : Nat :=
  s.foldl (fun acc c => (acc * 131 + c.toNat + 1) % 2 ^ 64) 2166136261

/-- The function `_compute_hash` from `simulation.py`, applied to the canonical
serialization `str(sorted(data.items()))` of its argument. -/
def _compute_hash (serializedItems : String) : Nat :=
  sha256head16 serializedItems

/-- The serialization of the fixed marker dict `{"default": True}` that seeds
unseeded simulators (`_compute_hash({"default": True})`).  The exact string
content is irrelevant; only that it is a fixed constant. -/
def defaultMarkerSerialized : String := "[(default, True)]"

/-- The fallback seed used when no explicit seed is supplied. -/
def defaultHashSeed : Nat := _compute_hash defaultMarkerSerialized

/-! ## Scenarios and action generation -/

/-- A scenario at the simulator level: `initial_state` (via
`scenario.get("initial_state", {})`, so absent and `{}` coincide) and the
optional predefined `actions` list. -/
structure Scenario where
  initial_state : StateDict
  actions? : Option (List Action) := none
deriving DecidableEq, Repr

/-- The function `_generate_actions` from `simulation.py`: copies of the scenario's
predefined actions when present (`action.copy()` is the identity on values),
otherwise one RNG magnitude per numeric field feeding an increment/decrement
pair, in the state's insertion order. -/
def _generate_actions (state : StateDict) (scenario : Scenario)
    (rng : PyRandom) : List Action × PyRandom :=
  match scenario.actions? with
  | some acts => (acts, rng)
  | none =>
      state.foldl
        (fun (acc : List Action × PyRandom) kv =>
          match kv.2 with
          | .num _ =>
              let d := acc.2.uniform (1 / 2) 2
              (acc.1 ++
                [{ type? := some "increment", field? := some kv.1,
                   delta? := some d.1 },
                 { type? := some "decrement", field? := some kv.1,
                   delta? := some d.1 }], d.2)
          | .str _ => acc)
        ([], rng)

/-! ## The beam search simulator -/

/-- The `SimulationState` dataclass: values, score, history. -/
structure SimulationState where
  values : StateDict
  score : Rat := 0
  history : List String := []
deriving DecidableEq, Repr

/-- Stable insertion of one element into a descending-by-score sorted list:
the element lands after every earlier element with a `≥` score. -/
def insertDesc (x : SimulationState) : List SimulationState → List SimulationState
  | [] => [x]
  | y :: ys => if y.score < x.score then x :: y :: ys else y :: insertDesc x ys

/-- Python `candidates.sort(key=lambda s: s.score, reverse=True)`: Python's sort is
stable, so on score ties earlier candidates stay first; a stable sort is
uniquely determined by that, and insertion sort realizes it. -/
def sortDesc : List SimulationState → List SimulationState
  | [] => []
  | x :: xs => insertDesc x (sortDesc xs)

/-- The sort `candidates.sort(...reverse=True)` followed by `candidates[:beam_width]`. -/
def prune (candidates : List SimulationState) (beam_width : Nat) :
    List SimulationState :=
  (sortDesc candidates).take beam_width

/-- The snapshot of a beam recorded into `intermediate_states`: a list of
`{"values": ..., "score": ..., "history": ...}` dicts (value-identical to the
states themselves, since `.copy()` copies values). -/
def snapshot (beam : List SimulationState) : List SimulationState :=
  beam.map (fun s => { values := s.values, score := s.score, history := s.history })

/-- The rendered action description: its type (default unknown), then its
field (default empty) in parentheses. -/
def actionDesc (action : Action) : String :=
  action.type?.getD "unknown" ++ "(" ++ action.field?.getD "" ++ ")"

/-- Expansion of one beam state: generate its actions, then apply and score
each one, extending the history with the rendered action description. -/
def expandState (scenario : Scenario) (constraints : Constraints)
    (st : SimulationState) (rng : PyRandom) :
    List SimulationState × PyRandom :=
  let g := _generate_actions st.values scenario rng
  (g.1.map (fun action =>
      let new_values := _apply_action st.values action
      let breakdown := _default_score_function new_values constraints
      { values := new_values, score := bdTotal breakdown,
        history := st.history ++ [actionDesc action] }), g.2)

/-- Expansion of the whole beam in order, threading the RNG. -/
def expandBeam (scenario : Scenario) (constraints : Constraints)
    (beam : List SimulationState) (rng : PyRandom) :
    List SimulationState × PyRandom :=
  beam.foldl
    (fun (acc : List SimulationState × PyRandom) st =>
      let e := expandState scenario constraints st acc.2
      (acc.1 ++ e.1, e.2))
    ([], rng)

/-- The `for step in range(self.max_steps)` loop of `BeamSimulator.run`:
record a snapshot, expand, prune to the beam width, and break early when the
beam empties.  Returns the final beam, the recorded snapshots and the RNG. -/
def runLoop (scenario : Scenario) (constraints : Constraints)
    (beam_width : Nat) :
    Nat → List SimulationState → PyRandom → List (List SimulationState) →
    List SimulationState × List (List SimulationState) × PyRandom
  | 0, beam, rng, snaps => (beam, snaps, rng)
  | steps + 1, beam, rng, snaps =>
      let snaps1 := snaps ++ [snapshot beam]
      let ex := expandBeam scenario constraints beam rng
      let beam1 := prune ex.1 beam_width
      if beam1.isEmpty then (beam1, snaps1, ex.2)
      else runLoop scenario constraints beam_width steps beam1 ex.2 snaps1

/-- Entries of `best_result` and `top_k`: values, score and path. -/
structure BestEntry where
  values : StateDict
  score : Rat
  path : List String
deriving DecidableEq, Repr

/-- The `SimulationResult` dataclass. -/
structure SimulationResult where
  run_id : String
  best_result : BestEntry
  top_k : List BestEntry
  score_breakdown : Breakdown
  intermediate_states : List (List SimulationState)
  scenario : Scenario
  constraints : Constraints
deriving DecidableEq, Repr

/-- The `BeamSimulator` object after `__init__`: parameters plus the RNG,
seeded from the explicit seed or from the fixed default hash. -/
structure BeamSimulator where
  beam_width : Nat
  max_steps : Nat
  seed : Option Int
  rng : PyRandom
deriving DecidableEq, Repr

/-- Python `BeamSimulator.__init__(beam_width, max_steps, seed)`. -/
def BeamSimulator.init (beam_width max_steps : Nat) (seed : Option Int) :
    BeamSimulator :=
  { beam_width, max_steps, seed,
    rng := mkRandom (match seed with
      | some s => s
      | none => (defaultHashSeed : Int)) }

/-- The method `BeamSimulator.run`: validate the initial state, run the beam search
loop, append the final snapshot, and assemble the result.  The `ValueError`
on a missing/empty initial state becomes `Except.error`. -/
def BeamSimulator.run (sim : BeamSimulator) (run_id : String)
    (scenario : Scenario) (constraints : Constraints) :
    Except String SimulationResult :=
  let initial_state := scenario.initial_state
  if initial_state.isEmpty then
    .error "Scenario must contain initial_state"
  else
    let initial_breakdown := _default_score_function initial_state constraints
    let initial_score := bdTotal initial_breakdown
    let beam0 : List SimulationState :=
      [{ values := initial_state, score := initial_score,
         history := ["initial"] }]
    let loopOut :=
      runLoop scenario constraints sim.beam_width sim.max_steps beam0 sim.rng []
    let beam := loopOut.1
    let snaps1 := loopOut.2.1 ++ [snapshot beam]
    let best : SimulationState :=
      match beam with
      | b :: _ => b
      | [] => { values := initial_state, score := 0 }
    let best_breakdown := _default_score_function best.values constraints
    .ok
      { run_id,
        best_result :=
          { values := best.values, score := best.score, path := best.history },
        top_k := (beam.take sim.beam_width).map
          (fun s => { values := s.values, score := s.score, path := s.history }),
        score_breakdown := best_breakdown,
        intermediate_states := snaps1,
        scenario, constraints }

/-! ## Run identifiers (`storage.py`) -/

/-- One lowercase hex digit. -/
def hexChar (n : Nat) : Char :=
  if n < 10 then Char.ofNat (48 + n) else Char.ofNat (87 + n)

/-- Fixed-width lowercase hex rendering. -/
def natToHex : Nat → Nat → String
  | 0, _ => ""
  | w + 1, n => natToHex w (n / 16) ++ String.mk [hexChar (n % 16)]

/-- Python `uuid.UUID(int=n, version=4)`: force the version nibble (bits 76–79)
to `4` and the variant bits (62–63) to `0b10`. -/
def setUuid4Bits (n : Nat) : Nat :=
  let m := n % 2 ^ 128
  let m1 := m / 2 ^ 80 * 2 ^ 80 + 4 * 2 ^ 76 + m % 2 ^ 76
  m1 / 2 ^ 64 * 2 ^ 64 + 2 * 2 ^ 62 + m1 % 2 ^ 62

/-- Canonical 8-4-4-4-12 UUID string of a 128-bit integer with the
version-4 bits forced. -/
def uuid4str (n : Nat) : String :=
  let hex := natToHex 32 (setUuid4Bits n)
  hex.take 8 ++ "-" ++ (hex.drop 8).take 4 ++ "-" ++ (hex.drop 12).take 4 ++
    "-" ++ (hex.drop 16).take 4 ++ "-" ++ hex.drop 20

/-- The function `generate_run_id` from `storage.py`: with a seed, a UUID derived from
`random.Random(seed).getrandbits(128)`; without one, a UUID from true
randomness (`uuid.uuid4()`), modelled by the ambient `entropy` input. -/
def generate_run_id (seed : Option Int) (entropy : Nat) : String :=
  match seed with
  | some s => uuid4str ((mkRandom s).getrandbits128).1
  | none => uuid4str entropy

/-! ## The persistence store (`storage.py`)

The JSON file behind `save_simulation`/`get_simulation` is modelled as an
in-memory insertion-ordered dict from run id to stored record; the
read-whole-store / assign / rewrite-whole-store cycle of the source is
equivalent to one dict assignment under the store lock. -/

/-- The dict persisted per run (`server.py` builds it field by field from the
`SimulationResult`). -/
structure StoredRecord where
  run_id : String
  best_result : BestEntry
  top_k : List BestEntry
  score_breakdown : Breakdown
  intermediate_states : List (List SimulationState)
  scenario : Scenario
  constraints : Constraints
deriving DecidableEq, Repr

/-- The record `server.py` passes to `save_simulation`. -/
def toRecord (r : SimulationResult) : StoredRecord :=
  { run_id := r.run_id, best_result := r.best_result, top_k := r.top_k,
    score_breakdown := r.score_breakdown,
    intermediate_states := r.intermediate_states,
    scenario := r.scenario, constraints := r.constraints }

/-- The `SimulationResult` reconstructed from a stored record
(`_handle_simulate_explain`, `server.py` lines 190–198). -/
def ofRecord (d : StoredRecord) : SimulationResult :=
  { run_id := d.run_id, best_result := d.best_result, top_k := d.top_k,
    score_breakdown := d.score_breakdown,
    intermediate_states := d.intermediate_states,
    scenario := d.scenario, constraints := d.constraints }

/-- The whole persistence store. -/
abbrev Store := List (String × StoredRecord)

/-- Python `save_simulation`: `storage[run_id] = data` under the lock. -/
def save_simulation (store : Store) (run_id : String) (data : StoredRecord) :
    Store :=
  assocSet store run_id data

/-- Python `get_simulation`: `storage.get(run_id)` under the lock. -/
def get_simulation (store : Store) (run_id : String) : Option StoredRecord :=
  assocGet store run_id

/-! ## The explanation generator (`BeamSimulator.explain`)

Python renders dicts with `repr` and floats with `:.2f`; the dict rendering
and rational-to-decimal formatting below are modelled renderings (the
round-trip claim depends only on `explain` being a function of the record's
value, not on the exact glyphs). -/

/-- Modelled rendering of one field value. -/
def renderValue : Value → String
  | .num x => toString x
  | .str s => s

/-- Modelled rendering of a state dict. -/
def renderState (s : StateDict) : String :=
  "\x7b" ++
    String.intercalate ", " (s.map (fun p => p.1 ++ ": " ++ renderValue p.2)) ++
    "\x7d"

/-- Modelled rendering of a constraints dict. -/
def renderConstraints (c : Constraints) : String :=
  "\x7b" ++
    String.intercalate ", " (c.map (fun p => p.1 ++ ": " ++ toString p.2)) ++
    "\x7d"

/-- Two-decimal float formatting, modelled for rationals: two decimals, rounding half away
from zero on the magnitude. -/
def fmt2 (x : Rat) : String :=
  let y := if x < 0 then -x else x
  let c := (y * 100 + 1 / 2).floor.toNat
  let ip := c / 100
  let fp := c % 100
  (if x < 0 then (if c = 0 then "" else "-") else "") ++ toString ip ++ "." ++
    (if fp < 10 then "0" else "") ++ toString fp

/-- The method `BeamSimulator.explain` from `simulation.py`: pure formatting of a
completed result into the multi-line report. -/
def BeamSimulator.explain (result : SimulationResult) : String :=
  let header : List String :=
    ["# Simulation Explanation (Run ID: " ++ result.run_id ++ ")",
     "",
     "## Initial Scenario",
     "Starting state: " ++ renderState result.scenario.initial_state,
     "Constraints applied: " ++
       (if result.constraints.isEmpty then "None"
        else renderConstraints result.constraints),
     "",
     "## Search Process",
     "The beam search explored " ++
       toString result.intermediate_states.length ++ " steps,",
     "keeping the top " ++ toString result.top_k.length ++
       " candidates at each step.",
     "",
     "## Winning Path"]
  let pathLines :=
    result.best_result.path.enum.map
      (fun p => "  " ++ toString p.1 ++ ". " ++ p.2)
  let bdLines :=
    result.score_breakdown.map (fun p => "  - " ++ p.1 ++ ": " ++ fmt2 p.2)
  let tail : List String :=
    ["",
     "**Total Score: " ++ fmt2 result.best_result.score ++ "**",
     "",
     "## Why This Result Won",
     "This result achieved the highest combined score by maximizing",
     "value contributions while minimizing constraint penalties."]
  let constraintLine : List String :=
    if result.constraints.isEmpty then []
    else ["The constraints [" ++
      String.intercalate ", " (result.constraints.map Prod.fst) ++
      "] were successfully respected."]
  String.intercalate "\n"
    (header ++ pathLines ++ ["", "## Final Score Breakdown"] ++ bdLines ++
      tail ++ constraintLine)

/-! ## The dispatch layer (`server.py`, `_handle_simulate_run`)

Tool arguments arrive as dynamically typed JSON values; the validation code
checks their Python types.  Booleans and containers in the scalar parameter
slots are outside the model (Python's `bool` is an `int` subclass). -/

/-- A dynamically typed scalar argument value. -/
inductive JVal where
  | jint (n : Int)
  | jfloat (x : Rat)
  | jstr (s : String)
deriving DecidableEq, Repr

/-- Python truthiness of a scalar. -/
def JVal.falsy : JVal → Bool
  | .jint n => n == 0
  | .jfloat x => x == 0
  | .jstr s => s == ""

/-- Python `isinstance(v, int)`. -/
def JVal.isInt : JVal → Bool
  | .jint _ => true
  | _ => false

/-- The `Int` under a `jint` (0 otherwise; only used after validation). -/
def JVal.toInt : JVal → Int
  | .jint n => n
  | _ => 0

/-- The `scenario` argument: either not a dict at all, or a dict with the
optional `initial_state` and `actions` entries (other keys are unused by the
engine and not modelled). -/
inductive ScenarioArg where
  | notObject (v : JVal)
  | obj (initial_state? : Option StateDict) (actions? : Option (List Action))
deriving DecidableEq, Repr

/-- Python truthiness of the scenario argument (`if not scenario:`). -/
def ScenarioArg.falsy : ScenarioArg → Bool
  | .notObject v => v.falsy
  | .obj i a => i.isNone && a.isNone

/-- The argument dict of the `simulate_run` tool. -/
structure Args where
  scenario : Option ScenarioArg := none
  constraints : Option Constraints := none
  beamWidth : Option JVal := none
  maxSteps : Option JVal := none
  seed : Option JVal := none
deriving DecidableEq, Repr

/-- The handler `_handle_simulate_run` from `server.py`: validate the arguments, derive
the run id, run the simulator, and persist the result; every `ValueError`
becomes `Except.error`.  The returned store is the store after the call —
untouched on every error path, since `save_simulation` is the final step. -/
def _handle_simulate_run (args : Args) (entropy : Nat) (store : Store) :
    Except String SimulationResult × Store :=
  match args.scenario with
  | none => (.error "Missing required field: scenario", store)
  | some sc =>
    if sc.falsy then (.error "Missing required field: scenario", store)
    else
      match sc with
      | .notObject _ => (.error "scenario must be an object", store)
      | .obj initial_state? actions? =>
        if initial_state?.isNone then
          (.error "scenario must contain initial_state", store)
        else
          let constraints := args.constraints.getD []
          let beam_width := args.beamWidth.getD (.jint 5)
          let max_steps := args.maxSteps.getD (.jint 10)
          let seed := args.seed
          if !beam_width.isInt || beam_width.toInt < 1 then
            (.error "beamWidth must be a positive integer", store)
          else if !max_steps.isInt || max_steps.toInt < 1 then
            (.error "maxSteps must be a positive integer", store)
          else if seed.isSome && !(seed.getD (.jint 0)).isInt then
            (.error "seed must be an integer", store)
          else
            let seedInt : Option Int := seed.map JVal.toInt
            let run_id := generate_run_id seedInt entropy
            let simulator := BeamSimulator.init beam_width.toInt.toNat
              max_steps.toInt.toNat seedInt
            let scenario : Scenario :=
              { initial_state := initial_state?.getD [], actions? }
            match simulator.run run_id scenario constraints with
            | .error e => (.error e, store)
            | .ok result =>
                (.ok result, save_simulation store run_id (toRecord result))

/-- The seeded end-to-end run of the core: run-id generation followed by the
simulator, exactly as `_handle_simulate_run` sequences them after
validation. -/
def runPipeline (scenario : Scenario) (constraints : Constraints)
    (beam_width max_steps : Nat) (seed : Option Int) (entropy : Nat) :
    Except String SimulationResult :=
  let run_id := generate_run_id seed entropy
  (BeamSimulator.init beam_width max_steps seed).run run_id scenario constraints

/-! ## Spec-side readings used by the claims -/

/-- Spec reading of the `value_sum` component: the sum of all numeric-valued
fields of the state, non-numeric fields ignored. -/
def specValueSum (state : StateDict) : Rat :=
  (state.filterMap
    (fun p => match p.2 with | .num x => some x | .str _ => none)).sum

/-- Spec reading of one constraint's penalty magnitude: `(actual − limit) × 10`
for a violated `max_<field>` constraint on a present numeric field,
`(limit − actual) × 10` for a violated `min_<field>` one, and `0` otherwise. -/
def specPenaltyOf (state : StateDict) (key : String) (limit : Rat) : Rat :=
  if pyStartsWith key "max_" then
    match assocGet state (key.drop 4) with
    | some (.num actual) => if limit < actual then (actual - limit) * 10 else 0
    | _ => 0
  else if pyStartsWith key "min_" then
    match assocGet state (key.drop 4) with
    | some (.num actual) => if actual < limit then (limit - actual) * 10 else 0
    | _ => 0
  else 0

/-- Spec reading of the `constraint_penalty` component: minus the sum of the
individual constraint penalties. -/
def specPenalty (state : StateDict) (constraints : Constraints) : Rat :=
  -(constraints.map (fun kv => specPenaltyOf state kv.1 kv.2)).sum

/-! ## Association-list lemmas -/

theorem assocMem_eq_isSome {α : Type} (l : List (String × α)) (k : String) :
    assocMem l k = (assocGet l k).isSome := by
  induction l with
  | nil => rfl
  | cons hd tl ih =>
      cases hhd : (hd.1 == k) with
      | true => simp [assocMem, assocGet, hhd]
      | false => simp [assocMem, assocGet, hhd, ih]

theorem assocSet_of_mem {α : Type} (l : List (String × α)) (k : String) (v : α)
    (h : assocMem l k = true) :
    assocSet l k v = l.map (fun p => if p.1 == k then (k, v) else p) := by
  simp [assocSet, h]

theorem assocSet_of_not_mem {α : Type} (l : List (String × α)) (k : String)
    (v : α) (h : assocMem l k = false) : assocSet l k v = l ++ [(k, v)] := by
  simp [assocSet, h]

theorem assocGet_assocSet_self {α : Type} (l : List (String × α)) (k : String)
    (v : α) : assocGet (assocSet l k v) k = some v := by
  induction l with
  | nil => simp [assocSet, assocMem, assocGet]
  | cons hd tl ih =>
      cases hhd : (hd.1 == k) with
      | true =>
          have hm : assocMem (hd :: tl) k = true := by simp [assocMem, hhd]
          rw [assocSet_of_mem _ _ _ hm]
          simp [assocGet, hhd]
      | false =>
          cases htl : assocMem tl k with
          | true =>
              have hm : assocMem (hd :: tl) k = true := by
                simp [assocMem, hhd, htl]
              rw [assocSet_of_mem _ _ _ hm]
              rw [assocSet_of_mem _ _ _ htl] at ih
              simpa [assocGet, hhd] using ih
          | false =>
              have hm : assocMem (hd :: tl) k = false := by
                simp [assocMem, hhd, htl]
              rw [assocSet_of_not_mem _ _ _ hm]
              rw [assocSet_of_not_mem _ _ _ htl] at ih
              simpa [assocGet, hhd] using ih

theorem assocGet_map_setter_ne {α : Type} (l : List (String × α))
    (k k1 : String) (v : α) (hne : k1 ≠ k) :
    assocGet (l.map (fun p => if p.1 == k then (k, v) else p)) k1 =
      assocGet l k1 := by
  induction l with
  | nil => rfl
  | cons hd tl ih =>
      cases hhd : (hd.1 == k) with
      | true =>
          have hd1 : hd.1 = k := by simpa using hhd
          have hk1 : (k == k1) = false := by
            simp only [beq_eq_false_iff_ne, ne_eq]
            exact fun h => hne h.symm
          have hhd1 : (hd.1 == k1) = false := by rw [hd1]; exact hk1
          simp only [List.map_cons, hhd, if_true]
          simp [assocGet, hk1, hhd1]
          simpa using ih
      | false =>
          simp only [List.map_cons, hhd, if_false]
          simp only [assocGet]
          cases hhd1 : (hd.1 == k1) with
          | true => simp [hhd1]
          | false => simpa [hhd1] using ih

theorem assocGet_assocSet_ne {α : Type} (l : List (String × α)) (k k1 : String)
    (v : α) (hne : k1 ≠ k) : assocGet (assocSet l k v) k1 = assocGet l k1 := by
  cases hmem : assocMem l k with
  | true => rw [assocSet_of_mem _ _ _ hmem, assocGet_map_setter_ne _ _ _ _ hne]
  | false =>
      rw [assocSet_of_not_mem _ _ _ hmem]
      induction l with
      | nil =>
          have hk1 : (k == k1) = false := by
            simp only [beq_eq_false_iff_ne, ne_eq]
            exact fun h => hne h.symm
          simp [assocGet, hk1]
      | cons hd tl ih =>
          have htl : assocMem tl k = false := by
            cases h : assocMem tl k with
            | true => simp [assocMem, h] at hmem
            | false => rfl
          cases hhd1 : (hd.1 == k1) with
          | true => simp [assocGet, hhd1]
          | false => simpa [assocGet, hhd1] using ih htl

/-! ## Scoring lemmas -/

theorem valueFold_eq (l : List Value) (acc : Rat) :
    l.foldl
      (fun acc v => match v with | Value.num x => acc + x | Value.str _ => acc)
      acc =
    acc + (l.filterMap
      (fun v => match v with | Value.num x => some x | Value.str _ => none)).sum := by
  induction l generalizing acc with
  | nil => simp
  | cons hd tl ih =>
      cases hd with
      | num x => simp [List.foldl_cons, ih]; ring
      | str s => simp [List.foldl_cons, ih]

theorem penaltyStep_eq (state : StateDict) (pen : Rat) (key : String)
    (limit : Rat) :
    (if pyStartsWith key "max_" && assocMem state (key.drop 4) then
       match dictGetD state (key.drop 4) (.num 0) with
       | .num actual =>
           if actual > limit then pen - (actual - limit) * 10 else pen
       | .str _ => pen
     else if pyStartsWith key "min_" && assocMem state (key.drop 4) then
       match dictGetD state (key.drop 4) (.num 0) with
       | .num actual =>
           if actual < limit then pen - (limit - actual) * 10 else pen
       | .str _ => pen
     else pen) =
    pen - specPenaltyOf state key limit := by
  unfold specPenaltyOf dictGetD
  rw [assocMem_eq_isSome]
  cases hget : assocGet state (key.drop 4) with
  | none =>
      cases hmax : pyStartsWith key "max_" <;>
        cases hmin : pyStartsWith key "min_" <;> simp [hget]
  | some v =>
      cases v with
      | num a =>
          cases hmax : pyStartsWith key "max_" with
          | true =>
              by_cases h : limit < a
              · simp [hget, gt_iff_lt, h]
              · simp [hget, gt_iff_lt, h]
          | false =>
              cases hmin : pyStartsWith key "min_" with
              | true =>
                  by_cases h : a < limit
                  · simp [hget, h]
                  · simp [hget, h]
              | false => simp [hget]
      | str s =>
          cases hmax : pyStartsWith key "max_" <;>
            cases hmin : pyStartsWith key "min_" <;> simp [hget]

theorem penaltyFold_eq (state : StateDict) (cs : Constraints) (pen : Rat) :
    cs.foldl
      (fun pen kv =>
        let key := kv.1
        let limit := kv.2
        if pyStartsWith key "max_" && assocMem state (key.drop 4) then
          match dictGetD state (key.drop 4) (.num 0) with
          | .num actual =>
              if actual > limit then pen - (actual - limit) * 10 else pen
          | .str _ => pen
        else if pyStartsWith key "min_" && assocMem state (key.drop 4) then
          match dictGetD state (key.drop 4) (.num 0) with
          | .num actual =>
              if actual < limit then pen - (limit - actual) * 10 else pen
          | .str _ => pen
        else pen)
      pen =
    pen - (cs.map (fun kv => specPenaltyOf state kv.1 kv.2)).sum := by
  induction cs generalizing pen with
  | nil => simp
  | cons hd tl ih =>
      rw [List.foldl_cons]
      simp only [List.map_cons, List.sum_cons]
      rw [penaltyStep_eq state pen hd.1 hd.2, ih]
      ring

/-- C3: `_default_score_function` returns exactly two components —
`value_sum`, the sum of the numeric-valued fields of the state (non-numeric
fields ignored), and `constraint_penalty`, subtracting `(actual − limit)·10`
for each violated `max_<field>` constraint on a present numeric field and
`(limit − actual)·10` for each violated `min_<field>` one, with constraints
on absent or non-numeric fields contributing nothing; in particular state
`{x: 10}` with constraints `{max_x: 5}` yields breakdown
`{value_sum: 10, constraint_penalty: -50}` with total `-40`. -/
theorem default_score_function_spec (state : StateDict)
    (constraints : Constraints) :
    _default_score_function state constraints =
      [("value_sum", specValueSum state),
       ("constraint_penalty", specPenalty state constraints)] ∧
    _default_score_function [("x", .num 10)] [("max_x", 5)] =
      [("value_sum", 10), ("constraint_penalty", -50)] ∧
    bdTotal (_default_score_function [("x", .num 10)] [("max_x", 5)]) = -40 := by
  have hgen : ∀ (s : StateDict) (c : Constraints),
      _default_score_function s c =
        [("value_sum", specValueSum s),
         ("constraint_penalty", specPenalty s c)] := by
    intro s c
    simp only [_default_score_function]
    rw [valueFold_eq, penaltyFold_eq]
    simp [specValueSum, specPenalty, List.filterMap_map, Function.comp_def,
      zero_add, zero_sub]
  have h1 : specValueSum [("x", Value.num 10)] = 10 := by
    simp [specValueSum]
  have hsw : pyStartsWith "max_x" "max_" = true := rfl
  have hdrop : "max_x".drop 4 = "x" := rfl
  have hget : assocGet [("x", Value.num 10)] "x" = some (Value.num 10) := rfl
  have h2 : specPenalty [("x", Value.num 10)] [("max_x", 5)] = -50 := by
    simp only [specPenalty, specPenaltyOf, List.map_cons, List.map_nil, hsw,
      hdrop, hget, if_true, List.sum_cons, List.sum_nil]
    norm_num
  have hex : _default_score_function [("x", .num 10)] [("max_x", 5)] =
      [("value_sum", 10), ("constraint_penalty", -50)] := by
    rw [hgen, h1, h2]
  refine ⟨hgen state constraints, hex, ?_⟩
  rw [hex]
  norm_num [bdTotal]

/-! ## Sorting lemmas for the pruning step -/

theorem insertDesc_perm (x : SimulationState) (l : List SimulationState) :
    List.Perm (insertDesc x l) (x :: l) := by
  induction l with
  | nil => exact List.Perm.refl _
  | cons y ys ih =>
      unfold insertDesc
      by_cases h : y.score < x.score
      · simp only [h, if_true]
        exact List.Perm.refl _
      · simp only [h, if_false]
        exact (ih.cons y).trans (List.Perm.swap x y ys)

theorem sortDesc_perm (l : List SimulationState) :
    List.Perm (sortDesc l) l := by
  induction l with
  | nil => exact List.Perm.refl _
  | cons x xs ih => exact (insertDesc_perm x (sortDesc xs)).trans (ih.cons x)

theorem insertDesc_pairwise (x : SimulationState) (l : List SimulationState)
    (h : l.Pairwise (fun a b => b.score ≤ a.score)) :
    (insertDesc x l).Pairwise (fun a b => b.score ≤ a.score) := by
  induction l with
  | nil => simp [insertDesc]
  | cons y ys ih =>
      rw [List.pairwise_cons] at h
      obtain ⟨hy, hys⟩ := h
      unfold insertDesc
      by_cases hlt : y.score < x.score
      · simp only [hlt, if_true]
        rw [List.pairwise_cons]
        refine ⟨?_, by rw [List.pairwise_cons]; exact ⟨hy, hys⟩⟩
        intro b hb
        rcases List.mem_cons.mp hb with rfl | hb1
        · exact le_of_lt hlt
        · exact le_trans (hy b hb1) (le_of_lt hlt)
      · simp only [hlt, if_false]
        rw [List.pairwise_cons]
        refine ⟨?_, ih hys⟩
        intro b hb
        have hb2 : b = x ∨ b ∈ ys := by
          simpa using (insertDesc_perm x ys).mem_iff.mp hb
        rcases hb2 with rfl | hb3
        · exact le_of_not_lt hlt
        · exact hy b hb3

theorem sortDesc_pairwise (l : List SimulationState) :
    (sortDesc l).Pairwise (fun a b => b.score ≤ a.score) := by
  induction l with
  | nil => simp [sortDesc]
  | cons x xs ih => exact insertDesc_pairwise x (sortDesc xs) ih

/-- C4: after sorting the step's candidate set by descending score and
truncating to the beam width (the `prune` step of `BeamSimulator.run`), the
first retained element has the maximum score of the entire candidate set,
and no discarded candidate's score strictly exceeds any retained one's (in
particular the retained minimum). -/
theorem prune_keeps_maximum (cands : List SimulationState) (w : Nat)
    (b0 : SimulationState) (h : (prune cands w).head? = some b0) :
    (∀ c ∈ cands, c.score ≤ b0.score) ∧
    (∀ d ∈ (sortDesc cands).drop w, ∀ b ∈ prune cands w,
      d.score ≤ b.score) := by
  constructor
  · intro c hc
    have hs : ∃ tl, sortDesc cands = b0 :: tl := by
      unfold prune at h
      cases hw : w with
      | zero => rw [hw] at h; simp at h
      | succ m =>
          cases hsort : sortDesc cands with
          | nil => rw [hsort, hw] at h; simp at h
          | cons hd tl =>
              rw [hsort, hw] at h
              simp only [List.take_succ_cons, List.head?_cons,
                Option.some.injEq] at h
              exact ⟨tl, by rw [h]⟩
    obtain ⟨tl, hs⟩ := hs
    have hc1 : c ∈ sortDesc cands := (sortDesc_perm cands).mem_iff.mpr hc
    rw [hs] at hc1
    rcases List.mem_cons.mp hc1 with rfl | hc2
    · exact le_refl _
    · have hp := sortDesc_pairwise cands
      rw [hs, List.pairwise_cons] at hp
      exact hp.1 c hc2
  · intro d hd b hb
    have hp := sortDesc_pairwise cands
    have hsplit := List.take_append_drop w (sortDesc cands)
    rw [← hsplit, List.pairwise_append] at hp
    unfold prune at hb
    exact hp.2.2 b hb d hd

/-- A concrete candidate set used to witness the pruning claim. -/
def demoLow : SimulationState :=
  { values := [("x", .num 1)], score := 1, history := ["initial"] }

/-- A concrete candidate with the maximum score. -/
def demoTop : SimulationState :=
  { values := [("x", .num 5)], score := 5, history := ["initial", "set(x)"] }

/-- A concrete middle-scored candidate. -/
def demoMid : SimulationState :=
  { values := [("x", .num 3)], score := 3, history := ["initial", "set(x)"] }

/-- The demo candidate list. -/
def demoCands : List SimulationState := [demoLow, demoTop, demoMid]

/-- Witness for C4 at a concrete candidate set and beam width 1. -/
theorem prune_keeps_maximum_witness :
    (prune demoCands 1).head? = some demoTop ∧
    demoLow.score ≤ demoTop.score ∧ demoMid.score ≤ demoTop.score := by
  have h : (prune demoCands 1).head? = some demoTop := by decide
  exact ⟨h,
    (prune_keeps_maximum demoCands 1 demoTop h).1 demoLow (by decide),
    (prune_keeps_maximum demoCands 1 demoTop h).1 demoMid (by decide)⟩

/-! ## The `set` action (C6) -/

/-- C6 counterexample: a `set` action whose target field name is the empty
string is a silent no-op (`elif action_type == "set" and field:` — the empty
string is falsy), so the field is not bound to the action's value, refuting
the claim for that field name. -/
theorem set_empty_field_counterexample :
    _apply_action [("a", Value.num 1)]
      { type? := some "set", field? := some "", value? := some (Value.num 7) } =
      [("a", Value.num 1)] ∧
    assocGet
      (_apply_action [("a", Value.num 1)]
        { type? := some "set", field? := some "",
          value? := some (Value.num 7) }) "" ≠
      some (Value.num 7) := by
  constructor
  · rfl
  · decide

/-- C6 (amended): for every state and every `set` action with a nonempty
target field name (the field need not pre-exist), the transition binds that
field to the action's explicit value — defaulting to `0` when unspecified —
and leaves every other field unchanged. -/
theorem set_action_spec (state : StateDict) (fld : String)
    (v? : Option Value) (d? : Option Rat) (hfld : fld ≠ "") :
    assocGet
      (_apply_action state
        { type? := some "set", field? := some fld, delta? := d?,
          value? := v? }) fld = some (v?.getD (Value.num 0)) ∧
    ∀ k, k ≠ fld →
      assocGet
        (_apply_action state
          { type? := some "set", field? := some fld, delta? := d?,
            value? := v? }) k = assocGet state k := by
  have h1 : (("set" : String) == "increment") = false := rfl
  have h2 : (("set" : String) == "decrement") = false := rfl
  have h3 : (fld != "") = true := by
    simp only [bne_iff_ne, ne_eq]
    exact hfld
  have happ : _apply_action state
      { type? := some "set", field? := some fld, delta? := d?, value? := v? } =
      assocSet state fld (v?.getD (Value.num 0)) := by
    simp [_apply_action, h1, h2, h3]
  rw [happ]
  exact ⟨assocGet_assocSet_self state fld _,
    fun k hk => assocGet_assocSet_ne state fld k _ hk⟩

/-- Witness for the amended C6 at a concrete state and `set` action. -/
theorem set_action_spec_witness :
    assocGet
      (_apply_action [("a", Value.num 1)]
        { type? := some "set", field? := some "x", delta? := none,
          value? := some (Value.num 7) }) "x" = some (Value.num 7) ∧
    assocGet
      (_apply_action [("a", Value.num 1)]
        { type? := some "set", field? := some "x", delta? := none,
          value? := some (Value.num 7) }) "a" = assocGet [("a", Value.num 1)] "a" :=
  ⟨(set_action_spec [("a", Value.num 1)] "x" (some (Value.num 7)) none
      (by decide)).1,
   (set_action_spec [("a", Value.num 1)] "x" (some (Value.num 7)) none
      (by decide)).2 "a" (by decide)⟩

/-! ## Transition purity on the explicit heap (C7) -/

theorem heapGet_concat_length (h : Heap) (x : StateDict) :
    heapGet (h ++ [x]) h.length = x := by
  induction h with
  | nil => rfl
  | cons hd tl ih => simp [heapGet, List.getD]

theorem heapGet_concat_lt (h : Heap) (x : StateDict) (a : Nat)
    (ha : a < h.length) : heapGet (h ++ [x]) a = heapGet h a := by
  induction h generalizing a with
  | nil => simp at ha
  | cons hd tl ih =>
      cases a with
      | zero => rfl
      | succ m =>
          have : m < tl.length := by simpa using ha
          simpa [heapGet, List.getD] using ih m this

theorem heapSet_concat_length (h : Heap) (x y : StateDict) :
    heapSet (h ++ [x]) h.length y = h ++ [y] := by
  induction h with
  | nil => rfl
  | cons hd tl ih => simp [heapSet]

theorem applyActionHeap_eq (h : Heap) (a : Nat) (action : Action) :
    applyActionHeap h a action =
      (h ++ [_apply_action (heapGet h a) action], h.length) := by
  simp only [applyActionHeap, _apply_action, heapGet_concat_length,
    heapSet_concat_length]
  split
  · split <;> rfl
  · split
    · split <;> rfl
    · split <;> rfl

/-- C7: applying an action never mutates the input state dict — after the
call the caller's dict is unchanged on the heap — and the returned state is
a distinct object whose contents are `_apply_action` of the original. -/
theorem apply_action_no_mutation (h : Heap) (a : Nat) (action : Action)
    (ha : a < h.length) :
    heapGet (applyActionHeap h a action).1 a = heapGet h a ∧
    (applyActionHeap h a action).2 ≠ a ∧
    heapGet (applyActionHeap h a action).1 (applyActionHeap h a action).2 =
      _apply_action (heapGet h a) action := by
  rw [applyActionHeap_eq]
  exact ⟨heapGet_concat_lt h _ a ha, ne_of_gt ha, heapGet_concat_length h _⟩

/-- The one-dict heap used to witness the purity claim. -/
def demoHeap : Heap := [[("a", Value.num 1)]]

/-- The concrete `set` action used on the demo heap. -/
def demoSetAction : Action :=
  { type? := some "set", field? := some "x", value? := some (Value.num 7) }

/-- Witness for C7 at a concrete heap, address and action. -/
theorem apply_action_no_mutation_witness :
    heapGet (applyActionHeap demoHeap 0 demoSetAction).1 0 = heapGet demoHeap 0 ∧
    (applyActionHeap demoHeap 0 demoSetAction).2 ≠ 0 :=
  ⟨(apply_action_no_mutation demoHeap 0 demoSetAction (by decide)).1,
   (apply_action_no_mutation demoHeap 0 demoSetAction (by decide)).2.1⟩

/-! ## Runs over scenarios with an explicit empty action list (C2, C10) -/

theorem expandState_nil_actions (scenario : Scenario)
    (constraints : Constraints) (st : SimulationState) (rng : PyRandom)
    (h : scenario.actions? = some []) :
    expandState scenario constraints st rng = ([], rng) := by
  simp [expandState, _generate_actions, h]

theorem expandBeam_nil_actions (scenario : Scenario)
    (constraints : Constraints) (beam : List SimulationState) (rng : PyRandom)
    (h : scenario.actions? = some []) :
    expandBeam scenario constraints beam rng = ([], rng) := by
  unfold expandBeam
  suffices hfold : ∀ acc : List SimulationState × PyRandom,
      beam.foldl
        (fun (acc : List SimulationState × PyRandom) st =>
          let e := expandState scenario constraints st acc.2
          (acc.1 ++ e.1, e.2))
        acc = acc by
    exact hfold ([], rng)
  intro acc
  induction beam generalizing acc with
  | nil => rfl
  | cons st rest ih =>
      rw [List.foldl_cons]
      rw [show (let e := expandState scenario constraints st acc.2
            (acc.1 ++ e.1, e.2)) = acc by
        rw [expandState_nil_actions scenario constraints st acc.2 h]
        simp]
      exact ih acc

theorem runLoop_nil_actions (scenario : Scenario) (constraints : Constraints)
    (w n : Nat) (beam : List SimulationState) (rng : PyRandom)
    (snaps : List (List SimulationState))
    (h : scenario.actions? = some []) :
    runLoop scenario constraints w (n + 1) beam rng snaps =
      ([], snaps ++ [snapshot beam], rng) := by
  unfold runLoop
  rw [expandBeam_nil_actions scenario constraints beam rng h]
  simp [prune, sortDesc]

theorem runLoop_width_zero (scenario : Scenario) (constraints : Constraints)
    (n : Nat) (beam : List SimulationState) (rng : PyRandom)
    (snaps : List (List SimulationState)) :
    (runLoop scenario constraints 0 (n + 1) beam rng snaps).1 = [] := by
  unfold runLoop
  simp [prune]

/-- C2 counterexample: a scenario with an explicit empty action list yields
`intermediate_states` of length 2 — the initial snapshot plus the final
(empty) snapshot appended after the loop — not "exactly one". -/
theorem empty_actions_snapshot_count_counterexample :
    ((BeamSimulator.init 2 3 (some 0)).run "run-1"
        { initial_state := [("x", Value.num 1)], actions? := some [] }
        []).toOption.map (fun r => r.intermediate_states.length) = some 2 ∧
    (2 : Nat) ≠ 1 := by
  exact ⟨by decide, by decide⟩

/-- C2 (amended): for every scenario with an explicit empty action list and
nonempty initial state, any constraints, any beam width, positive
`max_steps` and any seed, `run` records exactly two intermediate snapshot
entries — the snapshot of the initial singleton beam and a final empty
snapshot — and its best result's values equal the scenario's initial state
(with score 0 and empty path). -/
theorem empty_actions_run_spec (sim : BeamSimulator) (run_id : String)
    (scenario : Scenario) (constraints : Constraints)
    (hacts : scenario.actions? = some [])
    (hinit : scenario.initial_state.isEmpty = false)
    (hsteps : 1 ≤ sim.max_steps) :
    sim.run run_id scenario constraints = .ok
      { run_id := run_id,
        best_result :=
          { values := scenario.initial_state, score := 0, path := [] },
        top_k := [],
        score_breakdown :=
          _default_score_function scenario.initial_state constraints,
        intermediate_states :=
          [snapshot
            [{ values := scenario.initial_state,
               score := bdTotal
                 (_default_score_function scenario.initial_state constraints),
               history := ["initial"] }], []],
        scenario := scenario,
        constraints := constraints } := by
  obtain ⟨n, hn⟩ : ∃ n, sim.max_steps = n + 1 :=
    ⟨sim.max_steps - 1, by omega⟩
  unfold BeamSimulator.run
  simp only [hinit, hn, Bool.false_eq_true, if_false]
  rw [runLoop_nil_actions _ _ _ _ _ _ _ hacts]
  simp [snapshot]

/-- Witness for the amended C2 at a concrete scenario, width and seed. -/
theorem empty_actions_run_spec_witness :
    (BeamSimulator.init 2 3 (some 0)).run "run-1"
        { initial_state := [("x", Value.num 1)], actions? := some [] } [] = .ok
      { run_id := "run-1",
        best_result :=
          { values := [("x", Value.num 1)], score := 0, path := [] },
        top_k := [],
        score_breakdown := _default_score_function [("x", Value.num 1)] [],
        intermediate_states :=
          [snapshot
            [{ values := [("x", Value.num 1)],
               score := bdTotal (_default_score_function [("x", Value.num 1)] []),
               history := ["initial"] }], []],
        scenario := { initial_state := [("x", Value.num 1)], actions? := some [] },
        constraints := [] } :=
  empty_actions_run_spec (BeamSimulator.init 2 3 (some 0)) "run-1"
    { initial_state := [("x", Value.num 1)], actions? := some [] } []
    rfl rfl (by decide)

/-- C10: when the beam search ends with an empty beam (observable as an
empty `top_k`, given a positive `max_steps`), `run` falls back to a
synthetic best result whose values are the original initial state and whose
score is exactly 0, while `score_breakdown` is the freshly recomputed
breakdown of the initial state — so the reported score matches the
breakdown's sum exactly when the initial state's true total score is 0. -/
theorem empty_beam_fallback (sim : BeamSimulator) (run_id : String)
    (scenario : Scenario) (constraints : Constraints) (r : SimulationResult)
    (hsteps : 1 ≤ sim.max_steps)
    (hrun : sim.run run_id scenario constraints = .ok r)
    (htopk : r.top_k = []) :
    r.best_result =
      { values := scenario.initial_state, score := 0, path := [] } ∧
    r.score_breakdown =
      _default_score_function scenario.initial_state constraints ∧
    (r.best_result.score = bdTotal r.score_breakdown ↔
      bdTotal (_default_score_function scenario.initial_state constraints) =
        0) := by
  obtain ⟨n, hn⟩ : ∃ n, sim.max_steps = n + 1 :=
    ⟨sim.max_steps - 1, by omega⟩
  unfold BeamSimulator.run at hrun
  by_cases hinit : scenario.initial_state.isEmpty = true
  · simp only [hinit, if_true] at hrun
    exact Except.noConfusion hrun
  · have hinit1 : scenario.initial_state.isEmpty = false := by
      simpa using hinit
    simp only [hinit1, Bool.false_eq_true, if_false] at hrun
    rcases hLdef : runLoop scenario constraints sim.beam_width sim.max_steps
        [{ values := scenario.initial_state,
           score := bdTotal
             (_default_score_function scenario.initial_state constraints),
           history := ["initial"] }] sim.rng [] with ⟨beam, snaps, rngf⟩
    rw [hLdef] at hrun
    dsimp only at hrun
    have hr := Except.ok.inj hrun
    subst hr
    cases hbeam : beam with
    | nil =>
        subst hbeam
        dsimp only at htopk ⊢
        refine ⟨rfl, rfl, ?_⟩
        dsimp only
        constructor
        · intro h0; exact h0.symm
        · intro h0; exact h0.symm
    | cons b bs =>
        exfalso
        subst hbeam
        dsimp only at htopk
        have htake : List.take sim.beam_width (b :: bs) = [] :=
          List.map_eq_nil_iff.mp htopk
        have hw : sim.beam_width = 0 := by
          cases hwv : sim.beam_width with
          | zero => rfl
          | succ m => rw [hwv] at htake; simp at htake
        rw [hn, hw] at hLdef
        have := runLoop_width_zero scenario constraints n
          [{ values := scenario.initial_state,
             score := bdTotal
               (_default_score_function scenario.initial_state constraints),
             history := ["initial"] }] sim.rng []
        rw [hLdef] at this
        simp at this

/-- The scenario used to witness the empty-beam fallback. -/
def demoEmptyScenario : Scenario :=
  { initial_state := [("x", Value.num 1)], actions? := some [] }

/-- The concrete result produced by running `demoEmptyScenario`. -/
def demoEmptyResult : SimulationResult :=
  { run_id := "run-1",
    best_result := { values := [("x", Value.num 1)], score := 0, path := [] },
    top_k := [],
    score_breakdown := _default_score_function [("x", Value.num 1)] [],
    intermediate_states :=
      [snapshot
        [{ values := [("x", Value.num 1)],
           score := bdTotal (_default_score_function [("x", Value.num 1)] []),
           history := ["initial"] }], []],
    scenario := demoEmptyScenario,
    constraints := [] }

/-- Witness for C10 at a concrete empty-action scenario whose initial total
score is nonzero (so the reported 0 score differs from the breakdown sum). -/
theorem empty_beam_fallback_witness :
    demoEmptyResult.best_result =
      { values := [("x", Value.num 1)], score := 0, path := [] } ∧
    demoEmptyResult.score_breakdown =
      _default_score_function [("x", Value.num 1)] [] := by
  have hrun : (BeamSimulator.init 2 3 (some 0)).run "run-1"
      demoEmptyScenario [] = .ok demoEmptyResult := rfl
  have hmain := empty_beam_fallback (BeamSimulator.init 2 3 (some 0)) "run-1"
    demoEmptyScenario [] demoEmptyResult (by decide) hrun rfl
  exact ⟨hmain.1, hmain.2.1⟩

/-! ## Determinism of seeded runs (C1) and unseeded RNG reuse (C5)

Two independent executions differ only in the ambient true-randomness
(`os.urandom`) they could draw, modelled by the `entropy` input; a seeded
execution never consults it. -/

/-- C1: for a fixed scenario, constraints, beam width ≥ 1, max steps ≥ 1 and
a fixed explicit integer seed, two independent executions (arbitrary ambient
entropy on each side) produce identical `SimulationResult` values in every
field — best result, top-k, score breakdown, and all intermediate beam
snapshots — and `generate_run_id` with that seed yields the same run
identifier both times. -/
theorem seeded_run_deterministic (scenario : Scenario)
    (constraints : Constraints) (beam_width max_steps : Nat) (s : Int)
    (e1 e2 : Nat) (_hw : 1 ≤ beam_width) (_hsteps : 1 ≤ max_steps) :
    runPipeline scenario constraints beam_width max_steps (some s) e1 =
      runPipeline scenario constraints beam_width max_steps (some s) e2 ∧
    generate_run_id (some s) e1 = generate_run_id (some s) e2 :=
  ⟨rfl, rfl⟩

/-- Witness for C1 at a concrete scenario, width 2, 2 steps, seed 5 and two
different entropy draws. -/
theorem seeded_run_deterministic_witness :
    (1 : Nat) ≤ 2 ∧
    runPipeline demoEmptyScenario [] 2 2 (some 5) 0 =
      runPipeline demoEmptyScenario [] 2 2 (some 5) 99 ∧
    generate_run_id (some 5) 0 = generate_run_id (some 5) 99 :=
  ⟨by decide,
   (seeded_run_deterministic demoEmptyScenario [] 2 2 5 0 99 (by decide)
      (by decide)).1,
   (seeded_run_deterministic demoEmptyScenario [] 2 2 5 0 99 (by decide)
      (by decide)).2⟩

/-- The sequence of default action-generation magnitudes a simulator would
draw: successive `uniform(0.5, 2.0)` calls. -/
def magSeq (rng : PyRandom) : Nat → List Rat
  | 0 => []
  | n + 1 =>
      let d := rng.uniform (1 / 2) 2
      d.1 :: magSeq d.2 n

/-- C5: with no explicit seed, the simulator's RNG is seeded from the hash of
fixed marker data independent of the scenario: for any two (even different)
scenarios, unseeded simulators start with identical RNG state, the default
action-generation magnitudes come from the same pseudo-random sequence, and
the generated default actions for a common state coincide. -/
theorem unseeded_rng_scenario_independent (sc1 sc2 : Scenario)
    (w1 m1 w2 m2 : Nat) (st : StateDict) (n : Nat)
    (h1 : sc1.actions? = none) (h2 : sc2.actions? = none) :
    (BeamSimulator.init w1 m1 none).rng = (BeamSimulator.init w2 m2 none).rng ∧
    (BeamSimulator.init w1 m1 none).rng = mkRandom (defaultHashSeed : Int) ∧
    magSeq ((BeamSimulator.init w1 m1 none).rng) n =
      magSeq ((BeamSimulator.init w2 m2 none).rng) n ∧
    _generate_actions st sc1 ((BeamSimulator.init w1 m1 none).rng) =
      _generate_actions st sc2 ((BeamSimulator.init w2 m2 none).rng) := by
  refine ⟨rfl, rfl, rfl, ?_⟩
  unfold _generate_actions
  rw [h1, h2]
  rfl

/-- A second demo scenario with different content, for the C5 witness. -/
def demoScenarioB : Scenario :=
  { initial_state := [("y", Value.num 2), ("z", Value.num 3)] }

/-- A first demo scenario for the C5 witness. -/
def demoScenarioA : Scenario := { initial_state := [("x", Value.num 1)] }

/-- Witness for C5 at two concrete distinct unseeded scenarios. -/
theorem unseeded_rng_scenario_independent_witness :
    (BeamSimulator.init 2 3 none).rng = (BeamSimulator.init 5 10 none).rng ∧
    _generate_actions [("x", Value.num 1)] demoScenarioA
        ((BeamSimulator.init 2 3 none).rng) =
      _generate_actions [("x", Value.num 1)] demoScenarioB
        ((BeamSimulator.init 5 10 none).rng) :=
  ⟨(unseeded_rng_scenario_independent demoScenarioA demoScenarioB 2 3 5 10
      [("x", Value.num 1)] 0 rfl rfl).1,
   (unseeded_rng_scenario_independent demoScenarioA demoScenarioB 2 3 5 10
      [("x", Value.num 1)] 0 rfl rfl).2.2.2⟩

/-! ## Round trip through the persistence store (C9) -/

/-- C9: saving a `SimulationResult`'s record under its run id and retrieving
it by that id returns a record equal in all fields, and `explain` applied to
the reconstructed result produces text identical to `explain` on the
original. -/
theorem save_get_round_trip (store : Store) (r : SimulationResult) :
    get_simulation (save_simulation store r.run_id (toRecord r)) r.run_id =
      some (toRecord r) ∧
    BeamSimulator.explain (ofRecord (toRecord r)) = BeamSimulator.explain r :=
  ⟨assocGet_assocSet_self store r.run_id (toRecord r), rfl⟩

/-! ## Input validation of the run handler (C8) -/

/-- Spec reading of C8's failure condition: `scenario.initial_state` absent
(including a missing or non-object scenario) or empty, `beamWidth` or
`maxSteps` (after defaulting) not a positive integer, or `seed` present and
not an integer. -/
def specInvalidInput (args : Args) : Bool :=
  (match args.scenario with
   | none => true
   | some (.notObject _) => true
   | some (.obj none _) => true
   | some (.obj (some st) _) => st.isEmpty) ||
  (match args.beamWidth.getD (.jint 5) with
   | .jint n => decide (n < 1)
   | _ => true) ||
  (match args.maxSteps.getD (.jint 10) with
   | .jint n => decide (n < 1)
   | _ => true) ||
  (match args.seed with
   | none => false
   | some (.jint _) => false
   | some _ => true)

theorem run_isOk_eq (sim : BeamSimulator) (rid : String)
    (scenario : Scenario) (constraints : Constraints) :
    (sim.run rid scenario constraints).isOk =
      !scenario.initial_state.isEmpty := by
  cases h : scenario.initial_state.isEmpty <;>
    simp [BeamSimulator.run, h, Except.isOk, Except.toBool]

theorem run_error_isEmpty (sim : BeamSimulator) (rid : String)
    (scenario : Scenario) (constraints : Constraints) (e : String)
    (h : sim.run rid scenario constraints = .error e) :
    scenario.initial_state.isEmpty = true := by
  cases hst : scenario.initial_state.isEmpty with
  | true => rfl
  | false =>
      exfalso
      have hiso := run_isOk_eq sim rid scenario constraints
      rw [h, hst] at hiso
      simp [Except.isOk, Except.toBool] at hiso

theorem run_ok_isEmpty (sim : BeamSimulator) (rid : String)
    (scenario : Scenario) (constraints : Constraints) (r : SimulationResult)
    (h : sim.run rid scenario constraints = .ok r) :
    scenario.initial_state.isEmpty = false := by
  cases hst : scenario.initial_state.isEmpty with
  | false => rfl
  | true =>
      exfalso
      have hiso := run_isOk_eq sim rid scenario constraints
      rw [h, hst] at hiso
      simp [Except.isOk, Except.toBool] at hiso

/-- C8: `_handle_simulate_run` fails (raises `ValueError`, the InvalidInput
condition) exactly when `scenario.initial_state` is absent or empty, when
`beamWidth` or `maxSteps` (after defaulting) is not a positive integer, or
when `seed` is present and not an integer; and whenever it fails, nothing is
written to the persistence store. -/
theorem handle_simulate_run_invalid (args : Args) (entropy : Nat)
    (store : Store) :
    ((_handle_simulate_run args entropy store).1.isOk = true ↔
      specInvalidInput args = false) ∧
    ∀ e, (_handle_simulate_run args entropy store).1 = .error e →
      (_handle_simulate_run args entropy store).2 = store := by
  rcases hsc : args.scenario with _ | sc
  · refine ⟨?_, fun e herr => ?_⟩
    · simp [_handle_simulate_run, specInvalidInput, hsc, Except.isOk,
        Except.toBool]
    · simp [_handle_simulate_run, hsc]
  · rcases sc with v | ⟨init?, acts?⟩
    · cases hf : (ScenarioArg.notObject v).falsy <;>
        refine ⟨?_, fun e herr => ?_⟩ <;>
        simp [_handle_simulate_run, specInvalidInput, hsc, hf, Except.isOk,
          Except.toBool]
    · rcases init? with _ | st
      · cases hf : (ScenarioArg.obj none acts?).falsy <;>
          refine ⟨?_, fun e herr => ?_⟩ <;>
          simp [_handle_simulate_run, specInvalidInput, hsc, hf, Except.isOk,
            Except.toBool]
      · have hf : (ScenarioArg.obj (some st) acts?).falsy = false := rfl
        rcases hbw : args.beamWidth.getD (.jint 5) with n | x | s3
        rotate_left
        · refine ⟨?_, fun e herr => ?_⟩ <;>
            simp [_handle_simulate_run, specInvalidInput, hsc, hf, hbw,
              JVal.isInt, Except.isOk, Except.toBool]
        · refine ⟨?_, fun e herr => ?_⟩ <;>
            simp [_handle_simulate_run, specInvalidInput, hsc, hf, hbw,
              JVal.isInt, Except.isOk, Except.toBool]
        by_cases hn : n < 1
        · refine ⟨?_, fun e herr => ?_⟩ <;>
            simp [_handle_simulate_run, specInvalidInput, hsc, hf, hbw, hn,
              JVal.isInt, JVal.toInt, Except.isOk, Except.toBool]
        rcases hms : args.maxSteps.getD (.jint 10) with m | x2 | s4
        rotate_left
        · refine ⟨?_, fun e herr => ?_⟩ <;>
            simp [_handle_simulate_run, specInvalidInput, hsc, hf, hbw, hms,
              hn, JVal.isInt, JVal.toInt, Except.isOk, Except.toBool]
        · refine ⟨?_, fun e herr => ?_⟩ <;>
            simp [_handle_simulate_run, specInvalidInput, hsc, hf, hbw, hms,
              hn, JVal.isInt, JVal.toInt, Except.isOk, Except.toBool]
        by_cases hm : m < 1
        · refine ⟨?_, fun e herr => ?_⟩ <;>
            simp [_handle_simulate_run, specInvalidInput, hsc, hf, hbw, hms,
              hn, hm, JVal.isInt, JVal.toInt, Except.isOk, Except.toBool]
        rcases hv : args.seed with _ | sv
        · refine ⟨?_, fun e herr => ?_⟩
          · simp only [_handle_simulate_run, specInvalidInput, hsc, hf, hbw,
              hms, hv, hn, hm, JVal.isInt, JVal.toInt, Bool.false_eq_true,
              if_false, Option.isNone_some, Option.getD_some,
              Option.map_none, Option.isSome_none, Bool.not_true,
              Bool.false_and, decide_False, Bool.not_false, Bool.false_or,
              Bool.or_false, ite_false, Bool.or_self]
            split
            · rename_i e2 heq
              have hst := run_error_isEmpty _ _ _ _ _ heq
              simp [Except.isOk, Except.toBool, hst]
            · rename_i r2 heq
              have hst := run_ok_isEmpty _ _ _ _ _ heq
              simp [Except.isOk, Except.toBool, hst]
          · simp only [_handle_simulate_run, hsc, hf, hbw, hms, hv, hn, hm,
              JVal.isInt, JVal.toInt, Bool.false_eq_true, if_false,
              Option.isNone_some, Option.getD_some, Option.map_none,
              Option.isSome_none, Bool.not_true, Bool.false_and,
              decide_False, Bool.not_false, Bool.false_or, Bool.or_false,
              ite_false, Bool.or_self] at herr ⊢
            split at herr
            · rfl
            · simp at herr
        · rcases sv with s5 | x3 | s6
          · refine ⟨?_, fun e herr => ?_⟩
            · simp only [_handle_simulate_run, specInvalidInput, hsc, hf, hbw,
                hms, hv, hn, hm, JVal.isInt, JVal.toInt, Bool.false_eq_true,
                if_false, Option.isNone_some, Option.getD_some,
                Option.map_some, Option.isSome_some, Bool.not_true,
                Bool.and_false, decide_False, Bool.not_false, Bool.false_or,
                Bool.or_false, ite_false, Bool.or_self]
              split
              · rename_i e2 heq
                have hst := run_error_isEmpty _ _ _ _ _ heq
                simp [Except.isOk, Except.toBool, hst]
              · rename_i r2 heq
                have hst := run_ok_isEmpty _ _ _ _ _ heq
                simp [Except.isOk, Except.toBool, hst]
            · simp only [_handle_simulate_run, hsc, hf, hbw, hms, hv, hn, hm,
                JVal.isInt, JVal.toInt, Bool.false_eq_true, if_false,
                Option.isNone_some, Option.getD_some, Option.map_some,
                Option.isSome_some, Bool.not_true, Bool.and_false,
                decide_False, Bool.not_false, Bool.false_or, Bool.or_false,
                ite_false, Bool.or_self] at herr ⊢
              split at herr
              · rfl
              · simp at herr
          · refine ⟨?_, fun e herr => ?_⟩ <;>
              simp [_handle_simulate_run, specInvalidInput, hsc, hf, hbw,
                hms, hv, hn, hm, JVal.isInt, JVal.toInt, Except.isOk,
                Except.toBool]
          · refine ⟨?_, fun e herr => ?_⟩ <;>
              simp [_handle_simulate_run, specInvalidInput, hsc, hf, hbw,
                hms, hv, hn, hm, JVal.isInt, JVal.toInt, Except.isOk,
                Except.toBool]

/-- A concrete invalid argument dict: well-formed scenario but `beamWidth`
equal to 0. -/
def demoBadArgs : Args :=
  { scenario := some (.obj (some [("x", Value.num 1)]) none),
    beamWidth := some (.jint 0) }

/-- Witness for C8: on a concrete invalid input the handler errors and the
store is untouched. -/
theorem handle_simulate_run_invalid_witness :
    (_handle_simulate_run demoBadArgs 0 []).1 =
      .error "beamWidth must be a positive integer" ∧
    (_handle_simulate_run demoBadArgs 0 []).2 = [] ∧
    specInvalidInput demoBadArgs = true := by
  have herr : (_handle_simulate_run demoBadArgs 0 []).1 =
      .error "beamWidth must be a positive integer" := rfl
  exact ⟨herr, (handle_simulate_run_invalid demoBadArgs 0 []).2 _ herr,
    by decide⟩

end BeamSimMcp